import Mathlib

/-!
Shallow embedding of the flare Gaussian process model (src/flare/gp.py,
class GaussianProcess) and verification of its specification claims.

Modelling conventions:
* Real numbers of the Python code become rationals: all linear algebra is
  exact, so statements about equality "within floating tolerance" become
  exact equality.
* numpy arrays become lists of rationals; matrices become lists of rows.
* Python callables that are stored on the model (the kernel functions) are
  represented nominally by their names (strings); their numeric behavior
  lives in an explicit record of external collaborators, GPExt.
* Fallible Python operations return Except Err or pair the updated state
  with an Option Err; an Err value models an exception escaping a method,
  together with the state as it stands at that moment.
* External collaborators that are part of this repository but absent from
  src/ (flare.gp_algebra and friends) are modelled from the spec; each such
  definition carries a doc comment starting with "Modelled from the spec:".
-/

/-- Exception kinds observable from the embedded methods.  They mirror the
Python exception classes that the corresponding operations raise. -/
inductive Err where
  | assertionError
  | typeError
  | valueError
  | indexError
  | keyError
  | linAlgError
  | runtimeError
  | numericalError
deriving DecidableEq, Repr

/-- A square matrix given by its size and an entry function, realized as a
row-major list of rows (the shape numpy arrays take in this embedding). -/
def mkMat (n : ℕ) (f : ℕ → ℕ → ℚ) : List (List ℚ) :=
  (List.range n).map fun i => (List.range n).map fun j => f i j

/-- Entry access with numpy-free defaults; all uses stay in bounds. -/
def entry (M : List (List ℚ)) (i j : ℕ) : ℚ :=
  (M.getD i []).getD j 0

/-- Dot product of two equally long rational vectors (np.matmul on 1-d
arrays after the shape check has succeeded). -/
def dotQ (a b : List ℚ) : ℚ :=
  (a.zip b).foldl (fun acc p => acc + p.1 * p.2) 0

/-- Row vector times matrix, (v^T M) as a vector. -/
def vecMat (v : List ℚ) (M : List (List ℚ)) : List ℚ :=
  (List.range ((M.headD []).length)).map fun j => dotQ v (M.map fun row => row.getD j 0)

/-- Matrix transpose. -/
def transposeQ (M : List (List ℚ)) : List (List ℚ) :=
  (List.range ((M.headD []).length)).map fun j => M.map fun row => row.getD j 0

/-- Matrix times column vector. -/
def matVecQ (M : List (List ℚ)) (v : List ℚ) : List ℚ :=
  M.map fun row => dotQ row v

/-- Matrix product. -/
def matMulQ (A B : List (List ℚ)) : List (List ℚ) :=
  A.map fun row => vecMat row B

/-- np.max over a list of naturals: raises ValueError on an empty array
(zero-size reduction has no identity), otherwise the maximum. -/
def npMax (l : List ℕ) : Except Err ℕ :=
  match l with
  | [] => .error .valueError
  | x :: xs => .ok (xs.foldl max x)

/-- The hyperparameter mask dictionary (hyps_mask in gp.py).  A Python dict
with optional keys becomes a structure of Option fields: a none field
models an absent key. -/
structure HypsMask where
  nspec : Option ℕ := none
  spec_mask : Option (List ℕ) := none
  nbond : Option ℕ := none
  bond_mask : Option (List ℕ) := none
  ntriplet : Option ℕ := none
  triplet_mask : Option (List ℕ) := none
  map : Option (List ℕ) := none
  original : Option (List ℚ) := none
  bounds : Option (List (ℚ × Option ℚ)) := none
deriving DecidableEq, Repr

/-- Per-hyperparameter optimizer bounds; the upper bound none models
np.inf. -/
abbrev BoundsQ := List (ℚ × Option ℚ)

/-- The arguments of GaussianProcess.__init__ (gp.py lines 36-45).  The
kernel callables are represented nominally by their names. -/
structure GPParams where
  kernel : String
  kernel_grad : String
  hyps : List ℚ
  cutoffs : List ℚ
  hyp_labels : Option (List String) := none
  energy_force_kernel : Option String := none
  energy_kernel : Option String := none
  opt_algorithm : String := "L-BFGS-B"
  maxiter : ℕ := 10
  par : Bool := false
  no_cpus : Option ℕ := none
  per_atom_par : Bool := true
  multihyps : Bool := false
  hyps_mask : Option HypsMask := none
deriving DecidableEq, Repr

/-- The mutable attributes of a GaussianProcess instance (gp.py lines
48-123).  Env is the opaque type of atomic environments. -/
structure GPState (Env : Type) where
  kernel : String
  kernel_grad : String
  energy_kernel : Option String
  energy_force_kernel : Option String
  kernel_name : String
  hyps : List ℚ
  hyp_labels : Option (List String)
  cutoffs : List ℚ
  algo : String
  bounds : Option BoundsQ
  training_data : List Env
  training_labels : List (List ℚ)
  training_labels_np : List ℚ
  maxiter : ℕ
  par : Bool
  per_atom_par : Bool
  no_cpus : Option ℕ
  ky_mat : Option (List (List ℚ))
  l_mat : Option (List (List ℚ))
  alpha : Option (List ℚ)
  ky_mat_inv : Option (List (List ℚ))
  l_mat_inv : Option (List (List ℚ))
  likelihood : Option ℚ
  likelihood_gradient : Option (List ℚ)
  hyps_mask : Option HypsMask
  multihyps : Bool
deriving DecidableEq

/-- A structure as far as the GP inspects it (update_db reads only the
number of atoms and hands the rest to the environment constructor). -/
structure Struc where
  positions : List (List ℚ)
deriving DecidableEq, Repr

/-- The result record of scipy.optimize.minimize as the code reads it:
res.x, res.fun and res.jac.  The f field stands for the fun attribute,
whose Python name is a Lean keyword. -/
structure OptRes where
  x : List ℚ
  f : ℚ
  jac : List ℚ
deriving DecidableEq, Repr

/-- One call to scipy.optimize.minimize, identified by the data the code
passes that can influence its outcome. -/
structure MinCall where
  method : String
  bounds : Option BoundsQ
  x0 : List ℚ
deriving DecidableEq, Repr

/-- External collaborators of the GP core: the kernel callables (resolved
from names), the numpy and scipy linear algebra entry points, the
covariance and likelihood builders of flare.gp_algebra, and the
serialization codec for atomic environments.  Env is the opaque
environment type, EnvD the type of its dictionary form.  An Except Unit
failure models the collaborator raising. -/
structure GPExt (Env EnvD : Type) where
  kernel : Option HypsMask → Env → Env → ℕ → ℕ → List ℚ → List ℚ → ℚ
  energy_kernel : String → Env → Env → List ℚ → List ℚ → Option HypsMask → ℚ
  energy_force_kernel : String → Env → Env → ℕ → List ℚ → List ℚ → Option HypsMask → ℚ
  cholesky : List (List ℚ) → Option (List (List ℚ))
  inv : List (List ℚ) → List (List ℚ)
  solve_triangular : List (List ℚ) → List ℚ → List ℚ
  hyp_builder : List ℚ → Option HypsMask → List Env → List ℚ → List (List (List ℚ))
  get_like_grad_from_mats : List (List ℚ) → List (List (List ℚ)) → List ℚ → ℚ × List ℚ
  minimize : MinCall → Except Unit OptRes
  env_ctor : Struc → ℕ → List ℚ → Env
  env_as_dict : Env → EnvD
  env_from_dict : EnvD → Env
  str_to_kernel : String → Except Unit String
  str_to_kernel_grad : String → Except Unit (String × String)
  str_to_mc_kernel : String → Except Unit (String × String)
  str_to_mc_sephyps_kernel : String → Except Unit (String × String)

/-- The kernel as the instance methods call it: the hyps_mask keyword is
passed exactly when self.multihyps holds (gp.py lines 279-284, 388-402),
and self.hyps / self.cutoffs are supplied from the state. -/
def effKernel {Env EnvD : Type} (ext : GPExt Env EnvD) (s : GPState Env) :
    Env → Env → ℕ → ℕ → ℚ :=
  fun a b d1 d2 =>
    ext.kernel (if s.multihyps then s.hyps_mask else none) a b d1 d2 s.hyps s.cutoffs

variable {Env EnvD : Type}

/-- Kernel block entry of the covariance structure: row index i addresses
training environment i / 3 and Cartesian component i % 3 + 1 (the ds =
[1, 2, 3] convention of gp.py). -/
def kEntry (k : Env → Env → ℕ → ℕ → ℚ) (envs : List Env) (i j : ℕ) : ℚ :=
  match envs[i / 3]?, envs[j / 3]? with
  | some a, some b => k a b (i % 3 + 1) (j % 3 + 1)
  | _, _ => 0

/-- Modelled from the spec: the ky_mat output of get_ky_and_hyp /
get_ky_and_hyp_par and their multihyps variants (flare.gp_algebra and
flare.gp_algebra_multi, repository files not under src/).  Per data-model
section 3, ky_mat is the kernel Gram matrix over all 3N training force
components plus a diagonal noise term, the noise hyperparameter being the
trailing entry of hyps; per section 5 the parallel builder is
deterministic and agrees with the serial one. -/
def ky_full (k : Env → Env → ℕ → ℕ → ℚ) (hyps : List ℚ) (envs : List Env) :
    List (List ℚ) :=
  mkMat (3 * envs.length) fun i j =>
    kEntry k envs i j + (if i = j then (hyps.getLastD 0) ^ 2 else 0)

/-- GaussianProcess.get_kernel_vector (gp.py lines 371-403): kernel vector
between a query environment x with component d1 and every training force
component. -/
def get_kernel_vector (k : Env → Env → ℕ → ℕ → ℚ) (envs : List Env)
    (x : Env) (d1 : ℕ) : List ℚ :=
  (List.range (3 * envs.length)).map fun m =>
    match envs[m / 3]? with
    | some x2 => k x x2 d1 (m % 3 + 1)
    | none => 0

/-- GaussianProcess.get_kernel_vector_par (gp.py lines 325-369): the pool
collects results in submission order (section 5 of the spec), so the
values coincide with the serial loop. -/
def get_kernel_vector_par (k : Env → Env → ℕ → ℕ → ℚ) (envs : List Env)
    (x : Env) (d1 : ℕ) : List ℚ :=
  get_kernel_vector k envs x d1

/-- Modelled from the spec: get_ky_mat_update (flare.gp_algebra, repository
file not under src/).  Per section 4.3 extend, the untouched upper-left
block of the existing ky_mat is kept, and for every new row/column index m
the supplied kernel-vector function is evaluated against the full training
set and written into both row m and column m (the writes proceed in
ascending m, so at a cell with two new indices the larger index wins),
with the squared trailing noise hyperparameter added on the diagonal.
The par / no_cpus flags select the worker pool, which by section 5 leaves
the values unchanged. -/
def get_ky_mat_update (old_ky : List (List ℚ)) (envs : List Env)
    (kv : Env → ℕ → List ℚ) (hyps : List ℚ) (_par : Bool) (_no_cpus : Option ℕ) :
    List (List ℚ) :=
  mkMat (3 * envs.length) fun i j =>
    if i < old_ky.length ∧ j < old_ky.length then entry old_ky i j
    else
      (match envs[(max i j) / 3]? with
       | some e => (kv e ((max i j) % 3 + 1)).getD (min i j) 0
       | none => 0) + (if i = j then (hyps.getLastD 0) ^ 2 else 0)

namespace GaussianProcess

/-- The state every construction starts from (gp.py lines 48-76 and the
else branch of lines 121-123): fields copied from the arguments, empty
training set, null caches, kernel_name taken from the kernel callable
(nominally, the name itself). -/
def baseState (Env : Type) (p : GPParams) : GPState Env :=
  { kernel := p.kernel
    kernel_grad := p.kernel_grad
    energy_kernel := p.energy_kernel
    energy_force_kernel := p.energy_force_kernel
    kernel_name := p.kernel
    hyps := p.hyps
    hyp_labels := p.hyp_labels
    cutoffs := p.cutoffs
    algo := p.opt_algorithm
    bounds := none
    training_data := []
    training_labels := []
    training_labels_np := []
    maxiter := p.maxiter
    par := p.par
    per_atom_par := p.per_atom_par
    no_cpus := p.no_cpus
    ky_mat := none
    l_mat := none
    alpha := none
    ky_mat_inv := none
    l_mat_inv := none
    likelihood := none
    likelihood_gradient := none
    hyps_mask := none
    multihyps := false }

/-- One interaction-order block of the mask validation (gp.py lines 88-95
and 97-105 share this shape): when the group-count key is present and
positive, look up the mask array (KeyError if absent), take np.max of it
(ValueError on an empty array), assert the maximum is below the group
count and the length equals the required power of nspec; returns the
group count, zero when the key is absent. -/
def checkMaskBlock (ngroups : Option ℕ) (mask : Option (List ℕ)) (req : ℕ) :
    Except Err ℕ :=
  match ngroups with
  | none => .ok 0
  | some k =>
    if 0 < k then
      match mask with
      | none => .error .keyError
      | some bm =>
        match npMax bm with
        | .error e => .error e
        | .ok mx =>
          if mx < k then
            if bm.length = req then .ok k else .error .assertionError
          else .error .assertionError
    else .ok k

/-- The nbond block of the mask validation (gp.py lines 88-95). -/
def checkBond (m : HypsMask) (nspec : ℕ) : Except Err ℕ :=
  checkMaskBlock m.nbond m.bond_mask (nspec ^ 2)

/-- The ntriplet block of the mask validation (gp.py lines 97-105),
mirroring the nbond block with the cube of nspec. -/
def checkTriplet (m : HypsMask) (nspec : ℕ) : Except Err ℕ :=
  checkMaskBlock m.ntriplet m.triplet_mask (nspec ^ 3)

/-- The hyperparameter length checks of the mask validation (gp.py lines
109-118): with a map key, original must exist and carry 2*(n2b+n3b)+1
entries while map matches the hyps length; without one, hyps itself must
carry 2*(n2b+n3b)+1 entries. -/
def checkHypsLen (m : HypsMask) (n2b n3b : ℕ) (hyps : List ℚ) : Except Err Unit :=
  match m.map with
  | some mp =>
    match m.original with
    | none => .error .assertionError
    | some orig =>
      if n2b * 2 + n3b * 2 + 1 = orig.length then
        if mp.length = hyps.length then .ok () else .error .assertionError
      else .error .assertionError
  | none =>
    if n2b * 2 + n3b * 2 + 1 = hyps.length then .ok () else .error .assertionError

/-- GaussianProcess.__init__ (gp.py lines 36-123).  When multihyps is True
and a mask dict is supplied, the mask is validated (any assert failure
raising); otherwise the mask is silently dropped. -/
def init (Env : Type) (p : GPParams) : Except Err (GPState Env) :=
  match p.hyps_mask, p.multihyps with
  | some m, true =>
    match m.nspec with
    | none => .error .assertionError
    | some nspec =>
      match m.spec_mask with
      | none => .error .assertionError
      | some _ =>
        match checkBond m nspec with
        | .error e => .error e
        | .ok n2b =>
          match checkTriplet m nspec with
          | .error e => .error e
          | .ok n3b =>
            if 0 < n2b + n3b then
              match checkHypsLen m n2b n3b p.hyps with
              | .error e => .error e
              | .ok _ =>
                .ok { baseState Env p with
                        multihyps := true
                        hyps_mask := some m
                        bounds := m.bounds }
            else .error .assertionError
  | _, _ => .ok (baseState Env p)

/-- GaussianProcess.force_list_to_np (gp.py lines 168-184): the nested
append loop over forces and their components. -/
def force_list_to_np (forces : List (List ℚ)) : List ℚ :=
  forces.foldl (fun acc force => acc ++ force) []

/-- The atom loop of update_db (gp.py lines 141-146) followed by the
relabelling (line 149).  For each selected atom an environment is built
and forces[atom] is read; an out-of-range atom raises IndexError there,
leaving the already appended entries in place and the flattened label
vector untouched. -/
def updateDbLoop (ext : GPExt Env EnvD) (struc : Struc) (cut : List ℚ)
    (forces : List (List ℚ)) : List ℕ → GPState Env → GPState Env × Option Err
  | [], st =>
    ({ st with training_labels_np := force_list_to_np st.training_labels }, none)
  | atom :: rest, st =>
    match forces[atom]? with
    | none => (st, some .indexError)
    | some f =>
      updateDbLoop ext struc cut forces rest
        { st with
            training_data := st.training_data ++ [ext.env_ctor struc atom cut]
            training_labels := st.training_labels ++ [f] }

/-- GaussianProcess.update_db (gp.py lines 126-149): an empty custom_range
is falsy, so the default selection is every atom of the structure. -/
def update_db (ext : GPExt Env EnvD) (s : GPState Env) (struc : Struc)
    (forces : List (List ℚ)) (custom_range : List ℕ) : GPState Env × Option Err :=
  let noa := struc.positions.length
  let update_indices := if custom_range.isEmpty then List.range noa else custom_range
  updateDbLoop ext struc s.cutoffs forces update_indices s

/-- The covariance matrix set_L_alpha assembles for the current state. -/
def kyOf (ext : GPExt Env EnvD) (s : GPState Env) : List (List ℚ) :=
  ky_full (effKernel ext s) s.hyps s.training_data

/-- GaussianProcess.set_L_alpha (gp.py lines 429-476): build the
covariance and hyperparameter-gradient matrices, evaluate the likelihood
pair, factorize, and only then store every derived quantity; a Cholesky
failure raises with the state untouched. -/
def set_L_alpha (ext : GPExt Env EnvD) (s : GPState Env) : GPState Env × Option Err :=
  let hyp_mat := ext.hyp_builder s.hyps (if s.multihyps then s.hyps_mask else none)
      s.training_data s.training_labels_np
  let ky_mat := kyOf ext s
  let lg := ext.get_like_grad_from_mats ky_mat hyp_mat s.training_labels_np
  match ext.cholesky ky_mat with
  | none => (s, some .linAlgError)
  | some l_mat =>
    let l_mat_inv := ext.inv l_mat
    let ky_mat_inv := matMulQ (transposeQ l_mat_inv) l_mat_inv
    let alpha := matVecQ ky_mat_inv s.training_labels_np
    ({ s with
        ky_mat := some ky_mat
        l_mat := some l_mat
        alpha := some alpha
        ky_mat_inv := some ky_mat_inv
        l_mat_inv := some l_mat_inv
        likelihood := some lg.1
        likelihood_gradient := some lg.2 }, none)

/-- GaussianProcess.update_L_alpha (gp.py lines 478-503): full rebuild
when no factorization exists yet, otherwise incremental covariance update
followed by a fresh factorization; the likelihood pair is deliberately
not recomputed (the two assignments are commented out in the source). -/
def update_L_alpha (ext : GPExt Env EnvD) (s : GPState Env) : GPState Env × Option Err :=
  match s.l_mat with
  | none => set_L_alpha ext s
  | some _ =>
    match s.ky_mat with
    | none => (s, some .typeError)
    | some old_ky =>
      let ky_mat := get_ky_mat_update old_ky s.training_data
          (fun x d1 => get_kernel_vector (effKernel ext s) s.training_data x d1)
          s.hyps s.par s.no_cpus
      match ext.cholesky ky_mat with
      | none => (s, some .linAlgError)
      | some l_mat =>
        let l_mat_inv := ext.inv l_mat
        let ky_mat_inv := matMulQ (transposeQ l_mat_inv) l_mat_inv
        let alpha := matVecQ ky_mat_inv s.training_labels_np
        ({ s with
            ky_mat := some ky_mat
            l_mat := some l_mat
            alpha := some alpha
            ky_mat_inv := some ky_mat_inv
            l_mat_inv := some l_mat_inv }, none)

end GaussianProcess

/-- The outcome of GaussianProcess.train: the state as it stands when the
call returns or the exception escapes, the escaped exception if any, the
warning flag (the print of gp.py line 226), and the trace of minimize
calls made, by method name. -/
structure TrainOut (Env : Type) where
  state : GPState Env
  err : Option Err
  warned : Bool
  calls : List String
deriving DecidableEq

/-- The intermediate outcome of the optimization strategy selection inside
train, before the final factorization: chosen result (res), state (the
algo field may have been switched), warning flag, call trace, and the
exception escaping from an unguarded minimize call, if any. -/
structure SelOut (Env : Type) where
  res : Option OptRes
  state : GPState Env
  warned : Bool
  calls : List String
  raised : Option Err
deriving DecidableEq

/-- The default optimizer bounds of gp.py line 213: (1e-6, np.inf) for
every hyperparameter. -/
def defaultBounds (n : ℕ) : BoundsQ :=
  List.replicate n (1 / 1000000, none)

namespace GaussianProcess

/-- The branch structure of GaussianProcess.train (gp.py lines 207-248):
the guarded L-BFGS-B attempt (its bare except switches self.algo to BFGS
and warns), then the custom_bounds / BFGS / nelder-mead elif chain, whose
algo tests read the possibly already switched field.  Only the first
minimize call is inside a try; an error from the others escapes. -/
def trainSelect (ext : GPExt Env EnvD) (s : GPState Env)
    (custom_bounds : Option BoundsQ) : SelOut Env :=
  let x0 := s.hyps
  let step1 : Option OptRes × GPState Env × Bool × List String :=
    if s.algo = "L-BFGS-B" then
      let bounds := s.bounds.getD (defaultBounds x0.length)
      match ext.minimize ⟨"L-BFGS-B", some bounds, x0⟩ with
      | .ok r => (some r, s, false, ["L-BFGS-B"])
      | .error _ => (none, { s with algo := "BFGS" }, true, ["L-BFGS-B"])
    else (none, s, false, [])
  match step1 with
  | (res, s1, warned, calls) =>
    match custom_bounds with
    | some cb =>
      (match ext.minimize ⟨"L-BFGS-B", some cb, x0⟩ with
       | .ok r => ⟨some r, s1, warned, calls ++ ["L-BFGS-B"], none⟩
       | .error _ => ⟨res, s1, warned, calls ++ ["L-BFGS-B"], some .numericalError⟩)
    | none =>
      if s1.algo = "BFGS" then
        match ext.minimize ⟨"BFGS", none, x0⟩ with
        | .ok r => ⟨some r, s1, warned, calls ++ ["BFGS"], none⟩
        | .error _ => ⟨res, s1, warned, calls ++ ["BFGS"], some .numericalError⟩
      else if s1.algo = "nelder-mead" then
        match ext.minimize ⟨"nelder-mead", none, x0⟩ with
        | .ok r => ⟨some r, s1, warned, calls ++ ["nelder-mead"], none⟩
        | .error _ => ⟨res, s1, warned, calls ++ ["nelder-mead"], some .numericalError⟩
      else ⟨res, s1, warned, calls, none⟩

/-- GaussianProcess.train (gp.py lines 186-254): run the selected
optimization branches; with no result raise RuntimeError; otherwise adopt
res.x as hyperparameters, rebuild through set_L_alpha, and store the
negated objective value and gradient as likelihood and gradient. -/
def train (ext : GPExt Env EnvD) (s : GPState Env)
    (custom_bounds : Option BoundsQ) : TrainOut Env :=
  let o := trainSelect ext s custom_bounds
  match o.raised with
  | some e => ⟨o.state, some e, o.warned, o.calls⟩
  | none =>
    match o.res with
    | none => ⟨o.state, some .runtimeError, o.warned, o.calls⟩
    | some r =>
      let s2 := { o.state with hyps := r.x }
      match set_L_alpha ext s2 with
      | (s3, some e) => ⟨s3, some e, o.warned, o.calls⟩
      | (s3, none) =>
        ⟨{ s3 with
             likelihood := some (-r.f)
             likelihood_gradient := some (r.jac.map fun q => -q) }, none,
         o.warned, o.calls⟩

/-- GaussianProcess.add_one_env (gp.py lines 151-166): append one
environment / force pair, reflatten the labels, and optionally chain into
train. -/
def add_one_env (ext : GPExt Env EnvD) (s : GPState Env) (env : Env)
    (force : List ℚ) (tr : Bool) (custom_bounds : Option BoundsQ) :
    GPState Env × Option Err :=
  let s1 : GPState Env :=
    { s with
        training_data := s.training_data ++ [env]
        training_labels := s.training_labels ++ [force] }
  let s2 : GPState Env :=
    { s1 with training_labels_np := force_list_to_np s1.training_labels }
  if tr then
    let o := train ext s2 custom_bounds
    (o.state, o.err)
  else (s2, none)

/-- GaussianProcess.en_kern_vec (gp.py lines 405-427): vector of
energy/force cross kernels against the training set; calling a None
energy_force_kernel raises TypeError. -/
def en_kern_vec (ext : GPExt Env EnvD) (s : GPState Env) (x : Env) :
    Except Err (List ℚ) :=
  match s.energy_force_kernel with
  | none => .error .typeError
  | some nm =>
    .ok ((List.range (3 * s.training_data.length)).map fun m =>
      match s.training_data[m / 3]? with
      | some x2 =>
        ext.energy_force_kernel nm x2 x (m % 3 + 1) s.hyps s.cutoffs
          (if s.multihyps then s.hyps_mask else none)
      | none => 0)

/-- GaussianProcess.predict (gp.py lines 262-288): kernel vector, the
assert of line 273 on alpha, then mean and variance; np.matmul with a
None ky_mat_inv raises TypeError. -/
def predict (ext : GPExt Env EnvD) (s : GPState Env) (x : Env) (d : ℕ) :
    Except Err (ℚ × ℚ) :=
  let k_v := get_kernel_vector (effKernel ext s) s.training_data x d
  match s.alpha with
  | none => .error .assertionError
  | some a =>
    if 3 * s.training_data.length = a.length then
      match s.ky_mat_inv with
      | none => .error .typeError
      | some kyi =>
        let pred_mean := dotQ k_v a
        let self_kern := effKernel ext s x x d d
        .ok (pred_mean, self_kern - dotQ (vecMat k_v kyi) k_v)
    else .error .assertionError

/-- GaussianProcess.predict_local_energy (gp.py lines 290-301): kernel
vector and mean only; there is no assert here, so a stale alpha surfaces
as np.matmul raising (TypeError on None, ValueError on a length
mismatch), never as an AssertionError. -/
def predict_local_energy (ext : GPExt Env EnvD) (s : GPState Env) (x : Env) :
    Except Err ℚ :=
  match en_kern_vec ext s x with
  | .error e => .error e
  | .ok k_v =>
    match s.alpha with
    | none => .error .typeError
    | some a =>
      if a.length = k_v.length then .ok (dotQ k_v a) else .error .valueError

/-- GaussianProcess.predict_local_energy_and_var (gp.py lines 303-323):
mean as above, then the triangular solve against l_mat and the energy
self kernel; again no assert, failures surface from the numpy and scipy
calls themselves. -/
def predict_local_energy_and_var (ext : GPExt Env EnvD) (s : GPState Env)
    (x : Env) : Except Err (ℚ × ℚ) :=
  match en_kern_vec ext s x with
  | .error e => .error e
  | .ok k_v =>
    match s.alpha with
    | none => .error .typeError
    | some a =>
      if a.length = k_v.length then
        match s.l_mat with
        | none => .error .valueError
        | some lm =>
          let v_vec := ext.solve_triangular lm k_v
          match s.energy_kernel with
          | none => .error .typeError
          | some ekn =>
            let self_kern := ext.energy_kernel ekn x x s.hyps s.cutoffs
                (if s.multihyps then s.hyps_mask else none)
            .ok (dotQ k_v a, self_kern - dotQ v_vec v_vec)
      else .error .valueError

end GaussianProcess

/-- Substring containment over character lists (the Python expression
sub in string), checked structurally at every suffix. -/
def containsSub (l : List Char) (sub : List Char) : Bool :=
  match l with
  | [] => sub.isPrefixOf ([] : List Char)
  | c :: rest => sub.isPrefixOf (c :: rest) || containsSub rest sub

/-- The dictionary representation produced by GaussianProcess.as_dict: all
instance attributes except the kernel and kernel_grad callables, with the
training environments in their own dictionary form.  The energy kernels
(callables in the source, nominal names here) stay in the dict. -/
structure GPDict (EnvD : Type) where
  energy_kernel : Option String
  energy_force_kernel : Option String
  kernel_name : String
  hyps : List ℚ
  hyp_labels : Option (List String)
  cutoffs : List ℚ
  algo : String
  bounds : Option BoundsQ
  training_data : List EnvD
  training_labels : List (List ℚ)
  training_labels_np : List ℚ
  maxiter : ℕ
  par : Bool
  per_atom_par : Bool
  no_cpus : Option ℕ
  ky_mat : Option (List (List ℚ))
  l_mat : Option (List (List ℚ))
  alpha : Option (List ℚ)
  ky_mat_inv : Option (List (List ℚ))
  l_mat_inv : Option (List (List ℚ))
  likelihood : Option ℚ
  likelihood_gradient : Option (List ℚ)
  hyps_mask : Option HypsMask
  multihyps : Bool
deriving DecidableEq

namespace GaussianProcess

/-- GaussianProcess.as_dict (gp.py lines 543-554): deep copy of vars(self)
with training_data serialized entrywise and the kernel / kernel_grad
entries deleted. -/
def as_dict (ext : GPExt Env EnvD) (s : GPState Env) : GPDict EnvD :=
  { energy_kernel := s.energy_kernel
    energy_force_kernel := s.energy_force_kernel
    kernel_name := s.kernel_name
    hyps := s.hyps
    hyp_labels := s.hyp_labels
    cutoffs := s.cutoffs
    algo := s.algo
    bounds := s.bounds
    training_data := s.training_data.map ext.env_as_dict
    training_labels := s.training_labels
    training_labels_np := s.training_labels_np
    maxiter := s.maxiter
    par := s.par
    per_atom_par := s.per_atom_par
    no_cpus := s.no_cpus
    ky_mat := s.ky_mat
    l_mat := s.l_mat
    alpha := s.alpha
    ky_mat_inv := s.ky_mat_inv
    l_mat_inv := s.l_mat_inv
    likelihood := s.likelihood
    likelihood_gradient := s.likelihood_gradient
    hyps_mask := s.hyps_mask
    multihyps := s.multihyps }

/-- GaussianProcess.from_dict (gp.py lines 556-613): resolve the kernel
pair by name (the mc family when the name contains "mc", split between
the single and separate-hyperparameter registries on the multihyps flag),
resolve the energy kernels when non-None, run the constructor, then load
the cached matrices and training data and recompute the flattened labels.
The np.array wrapping of the loaded fields is value preserving here and
is modelled as the identity. -/
def from_dict (ext : GPExt Env EnvD) (d : GPDict EnvD) : Except Err (GPState Env) :=
  match (if containsSub d.kernel_name.toList "mc".toList then
           (if d.multihyps = false then ext.str_to_mc_kernel d.kernel_name
            else ext.str_to_mc_sephyps_kernel d.kernel_name)
         else ext.str_to_kernel_grad d.kernel_name) with
  | .error _ => .error .valueError
  | .ok (force_kernel, grad) =>
    match (match d.energy_kernel with
           | some nm => (ext.str_to_kernel nm).map some
           | none => .ok none) with
    | .error _ => .error .valueError
    | .ok energy_kernel =>
      match (match d.energy_force_kernel with
             | some nm => (ext.str_to_kernel nm).map some
             | none => .ok none) with
      | .error _ => .error .valueError
      | .ok energy_force_kernel =>
        match init Env
            { kernel := force_kernel
              kernel_grad := grad
              energy_kernel := energy_kernel
              energy_force_kernel := energy_force_kernel
              cutoffs := d.cutoffs
              hyps := d.hyps
              hyp_labels := d.hyp_labels
              par := d.par
              no_cpus := d.no_cpus
              maxiter := d.maxiter
              opt_algorithm := d.algo
              multihyps := d.multihyps
              hyps_mask := d.hyps_mask } with
        | .error e => .error e
        | .ok g =>
          .ok { g with
                  l_mat := d.l_mat
                  l_mat_inv := d.l_mat_inv
                  alpha := d.alpha
                  ky_mat := d.ky_mat
                  ky_mat_inv := d.ky_mat_inv
                  training_data := d.training_data.map ext.env_from_dict
                  training_labels := d.training_labels
                  likelihood := d.likelihood
                  likelihood_gradient := d.likelihood_gradient
                  training_labels_np := force_list_to_np d.training_labels }

end GaussianProcess

/-- The mask relations exactly as claim C5 states them: nspec and
spec_mask keys present; when nbond is positive, bond_mask of length nspec
squared with every entry below nbond; when ntriplet is positive the cubic
analogue; at least one of nbond / ntriplet positive; and the
hyperparameter count relation 2*(nbond+ntriplet)+1 = len(hyps), which
through the original / map indirection becomes len(original) together
with len(map) = len(hyps).  An absent nbond or ntriplet key counts as
zero groups. -/
def MaskValid (m : HypsMask) (hyps : List ℚ) : Prop :=
  m.nspec.isSome = true
  ∧ m.spec_mask.isSome = true
  ∧ (0 < m.nbond.getD 0 → ∃ bm, m.bond_mask = some bm
      ∧ bm.length = (m.nspec.getD 0) ^ 2 ∧ ∀ e ∈ bm, e < m.nbond.getD 0)
  ∧ (0 < m.ntriplet.getD 0 → ∃ tm, m.triplet_mask = some tm
      ∧ tm.length = (m.nspec.getD 0) ^ 3 ∧ ∀ e ∈ tm, e < m.ntriplet.getD 0)
  ∧ 0 < m.nbond.getD 0 + m.ntriplet.getD 0
  ∧ (match m.map with
     | some mp => ∃ orig, m.original = some orig
         ∧ 2 * (m.nbond.getD 0 + m.ntriplet.getD 0) + 1 = orig.length
         ∧ mp.length = hyps.length
     | none => 2 * (m.nbond.getD 0 + m.ntriplet.getD 0) + 1 = hyps.length)

/-- Concrete collaborator instance for witnesses: environments are natural
numbers, the force kernel is the symmetric polynomial a*b + d1*d2, the
Cholesky routine accepts every matrix unchanged, and every name resolver
succeeds. -/
def extNat : GPExt ℕ ℕ :=
  { kernel := fun _ a b d1 d2 _ _ => (a * b + d1 * d2 : ℚ)
    energy_kernel := fun _ _ _ _ _ _ => 0
    energy_force_kernel := fun _ a b d _ _ _ => (a + b + d : ℚ)
    cholesky := fun M => some M
    inv := fun M => M
    solve_triangular := fun _ v => v
    hyp_builder := fun _ _ _ _ => []
    get_like_grad_from_mats := fun _ _ _ => (0, [])
    minimize := fun c => .ok ⟨c.x0, 5, [7]⟩
    env_ctor := fun _ atom _ => atom
    env_as_dict := fun e => e
    env_from_dict := fun e => e
    str_to_kernel := fun nm => .ok nm
    str_to_kernel_grad := fun nm => .ok (nm, nm)
    str_to_mc_kernel := fun nm => .ok (nm, nm)
    str_to_mc_sephyps_kernel := fun nm => .ok (nm, nm) }

/-- Concrete base model state for witnesses: fresh single-hyperparameter
model without caches. -/
def sNat : GPState ℕ :=
  { kernel := "two_body"
    kernel_grad := "two_body_grad"
    energy_kernel := none
    energy_force_kernel := none
    kernel_name := "two_body"
    hyps := [1]
    hyp_labels := none
    cutoffs := [7]
    algo := "L-BFGS-B"
    bounds := none
    training_data := []
    training_labels := []
    training_labels_np := []
    maxiter := 10
    par := false
    per_atom_par := true
    no_cpus := none
    ky_mat := none
    l_mat := none
    alpha := none
    ky_mat_inv := none
    l_mat_inv := none
    likelihood := none
    likelihood_gradient := none
    hyps_mask := none
    multihyps := false }

/-- C1 witness model: two training environments of which the first was
already factorized (its 3x3 covariance block and a Cholesky factor are
cached), about to be updated incrementally. -/
def sC1 : GPState ℕ :=
  { sNat with
      training_data := [0, 1]
      training_labels := [[1, 2, 3], [4, 5, 6]]
      training_labels_np := [1, 2, 3, 4, 5, 6]
      l_mat := some [[1]]
      ky_mat := some (ky_full (fun a b d1 d2 => (a * b + d1 * d2 : ℚ)) [1] [0]) }

/-- The collaborator instance whose Cholesky routine always reports a
non-positive-definite matrix. -/
def extCholFail : GPExt ℕ ℕ :=
  { extNat with cholesky := fun _ => none }

/-- The collaborator instance whose optimizer raises on every call (the
objective fails at every trial point, whatever the method). -/
def extMinFail : GPExt ℕ ℕ :=
  { extNat with minimize := fun _ => .error () }

/-- The collaborator instance whose optimizer raises under the bounded
method but succeeds under any other method. -/
def extLbfgsFail : GPExt ℕ ℕ :=
  { extNat with
      minimize := fun c =>
        if c.method = "L-BFGS-B" then .error () else .ok ⟨c.x0, 5, [7]⟩ }

/-- C4 fixture: a model with one training entry, energy kernels present,
but a null alpha (prediction precondition violated). -/
def sC4 : GPState ℕ :=
  { sNat with
      training_data := [0]
      training_labels := [[1, 2, 3]]
      training_labels_np := [1, 2, 3]
      energy_force_kernel := some "ef"
      energy_kernel := some "ek" }

/-- C5 counterexample fixture: a degenerate mask with zero species, one
bond group and an empty bond_mask; every relation stated by the claim
holds (the length nspec^2 = 0 and the range condition are vacuous), yet
np.max of the empty array raises during construction. -/
def maskDegenerate : HypsMask :=
  { nspec := some 0
    spec_mask := some []
    nbond := some 1
    bond_mask := some [] }

def pDegenerate : GPParams :=
  { kernel := "two_body"
    kernel_grad := "two_body_grad"
    hyps := [1, 1, 1]
    cutoffs := [7]
    multihyps := true
    hyps_mask := some maskDegenerate }

/-- C5 scenario fixtures: nspec = 2, nbond = 1, ntriplet absent, three
hyperparameters; the good mask references only bond group 0, the bad one
references group 1 although only one group exists. -/
def maskScenario : HypsMask :=
  { nspec := some 2
    spec_mask := some [0, 1]
    nbond := some 1
    bond_mask := some [0, 0, 0, 0] }

def pScenario : GPParams :=
  { kernel := "two_body"
    kernel_grad := "two_body_grad"
    hyps := [1, 2, 3]
    cutoffs := [7]
    multihyps := true
    hyps_mask := some maskScenario }

def maskScenarioBad : HypsMask :=
  { maskScenario with bond_mask := some [0, 0, 0, 1] }

def pScenarioBad : GPParams :=
  { pScenario with hyps_mask := some maskScenarioBad }

/-- C10 witness fixture: a thoroughly malformed mask (no nspec, no
spec_mask, dangling bond_mask) handed to a construction with multihyps
left False. -/
def pC10 : GPParams :=
  { kernel := "two_body"
    kernel_grad := "two_body_grad"
    hyps := [1]
    cutoffs := [7]
    multihyps := false
    hyps_mask := some { bond_mask := some [5, 6], map := some [] } }

/-- C8 counterexample fixture: a one-atom structure. -/
def strucC8 : Struc := ⟨[[0, 0, 0]]⟩

theorem length_mkMat (n : ℕ) (f : ℕ → ℕ → ℚ) : (mkMat n f).length = n := by
  simp [mkMat]

theorem getD_range_map (n t : ℕ) (F : ℕ → ℚ) (h : t < n) :
    (((List.range n).map F).getD t 0) = F t := by
  rw [List.getD_eq_getElem?_getD, List.getElem?_map, List.getElem?_range h]
  rfl

theorem entry_mkMat (n i j : ℕ) (f : ℕ → ℕ → ℚ) (hi : i < n) (hj : j < n) :
    entry (mkMat n f) i j = f i j := by
  unfold entry mkMat
  have hrow : ((List.range n).map (fun i => (List.range n).map fun j => f i j)).getD i []
      = (List.range n).map fun j => f i j := by
    rw [List.getD_eq_getElem?_getD, List.getElem?_map, List.getElem?_range hi]
    rfl
  rw [hrow]
  exact getD_range_map n j (f i) hj

theorem mkMat_congr (n : ℕ) (f g : ℕ → ℕ → ℚ)
    (h : ∀ i, i < n → ∀ j, j < n → f i j = g i j) : mkMat n f = mkMat n g := by
  unfold mkMat
  apply List.map_congr_left
  intro i hi
  apply List.map_congr_left
  intro j hj
  exact h i (List.mem_range.mp hi) j (List.mem_range.mp hj)

theorem getElem?_take_of_lt {α : Type} (l : List α) (n i : ℕ) (h : i < n) :
    (l.take n)[i]? = l[i]? := by
  induction l generalizing n i with
  | nil => simp
  | cons a t ih =>
    cases n with
    | zero => omega
    | succ n =>
      cases i with
      | zero => simp
      | succ i =>
        simp only [List.take_succ_cons, List.getElem?_cons_succ]
        exact ih n i (by omega)

/-- Core of the incremental/full equivalence: if the stored ky_mat is the
full covariance matrix of the first N training entries, then the
incremental update against the enlarged training set rebuilds exactly the
full covariance matrix of all entries, provided the kernel is symmetric
(the contract of section 6). -/
theorem entry_ky_full (k : Env → Env → ℕ → ℕ → ℚ) (hyps : List ℚ)
    (envs : List Env) (i j : ℕ)
    (hi : i < 3 * envs.length) (hj : j < 3 * envs.length) :
    entry (ky_full k hyps envs) i j
      = kEntry k envs i j + (if i = j then (hyps.getLastD 0) ^ 2 else 0) := by
  unfold ky_full
  exact entry_mkMat _ _ _ _ hi hj

/-- Core of the incremental/full equivalence: if the stored ky_mat is the
full covariance matrix of the first N training entries, then the
incremental update against the enlarged training set rebuilds exactly the
full covariance matrix of all entries, provided the kernel is symmetric
(the contract of section 6). -/
theorem ky_update_eq_full (k : Env → Env → ℕ → ℕ → ℚ)
    (hsym : ∀ a b i j, k a b i j = k b a j i)
    (hyps : List ℚ) (envs : List Env) (N : ℕ) (hN : N ≤ envs.length)
    (par : Bool) (no_cpus : Option ℕ) :
    get_ky_mat_update (ky_full k hyps (envs.take N)) envs
      (fun x d1 => get_kernel_vector k envs x d1) hyps par no_cpus
    = ky_full k hyps envs := by
  have hlen : (ky_full k hyps (envs.take N)).length = 3 * N := by
    rw [ky_full, length_mkMat, List.length_take, Nat.min_eq_left hN]
  rw [get_ky_mat_update, hlen]
  conv_rhs => rw [ky_full]
  apply mkMat_congr
  intro i hi j hj
  by_cases hb : i < 3 * N ∧ j < 3 * N
  · -- the untouched upper-left block
    rw [if_pos hb]
    have hiN : i < 3 * (envs.take N).length := by
      rw [List.length_take, Nat.min_eq_left hN]; exact hb.1
    have hjN : j < 3 * (envs.take N).length := by
      rw [List.length_take, Nat.min_eq_left hN]; exact hb.2
    rw [entry_ky_full _ _ _ _ _ hiN hjN]
    have hidx : ∀ t, t < 3 * N → (envs.take N)[t / 3]? = envs[t / 3]? := by
      intro t ht
      exact getElem?_take_of_lt envs N (t / 3) (by omega)
    unfold kEntry
    rw [hidx i hb.1, hidx j hb.2]
  · -- a new row or column
    rw [if_neg hb]
    have hm : max i j < 3 * envs.length := by
      rcases Nat.le_total i j with h | h
      · rw [Nat.max_eq_right h]; exact hj
      · rw [Nat.max_eq_left h]; exact hi
    have ht : min i j < 3 * envs.length := by
      rcases Nat.le_total i j with h | h
      · rw [Nat.min_eq_left h]; exact hi
      · rw [Nat.min_eq_right h]; exact hj
    have hmem : (max i j) / 3 < envs.length := by omega
    have htm : (min i j) / 3 < envs.length := by omega
    have hi3 : i / 3 < envs.length := by omega
    have hj3 : j / 3 < envs.length := by omega
    have hkv : (get_kernel_vector k envs (envs[(max i j) / 3]) ((max i j) % 3 + 1)).getD (min i j) 0
        = k (envs[(max i j) / 3]) (envs[(min i j) / 3]) ((max i j) % 3 + 1) ((min i j) % 3 + 1) := by
      unfold get_kernel_vector
      rw [getD_range_map _ _ _ ht]
      simp only [List.getElem?_eq_getElem htm]
    simp only [List.getElem?_eq_getElem hmem, hkv]
    unfold kEntry
    simp only [List.getElem?_eq_getElem hi3, List.getElem?_eq_getElem hj3]
    rcases Nat.le_total i j with hle | hle
    · have h1 : max i j = j := Nat.max_eq_right hle
      have h2 : min i j = i := Nat.min_eq_left hle
      simp only [h1, h2]
      rw [hsym]
    · have h1 : max i j = i := Nat.max_eq_left hle
      have h2 : min i j = j := Nat.min_eq_right hle
      simp only [h1, h2]

theorem force_list_to_np_eq_flatten_aux (l : List (List ℚ)) (acc : List ℚ) :
    l.foldl (fun a force => a ++ force) acc = acc ++ l.flatten := by
  induction l generalizing acc with
  | nil => simp
  | cons f t ih => simp [ih]

/-- force_list_to_np is exactly the row-major concatenation of its input:
a pure function of the list of force vectors. -/
theorem force_list_to_np_eq_flatten (l : List (List ℚ)) :
    GaussianProcess.force_list_to_np l = l.flatten := by
  unfold GaussianProcess.force_list_to_np
  simpa using force_list_to_np_eq_flatten_aux l []

theorem flatten_length_of_three (l : List (List ℚ))
    (h : ∀ f ∈ l, f.length = 3) : l.flatten.length = 3 * l.length := by
  induction l with
  | nil => simp
  | cons f t ih =>
    simp only [List.flatten_cons, List.length_append, List.length_cons]
    rw [h f (by simp), ih (fun g hg => h g (by simp [hg]))]
    ring

/-- set_L_alpha never touches the training set, the hyperparameters or the
algorithm choice, on either the success or the failure path. -/
theorem set_L_alpha_frame (ext : GPExt Env EnvD) (s : GPState Env) :
    ((GaussianProcess.set_L_alpha ext s).1.algo = s.algo)
    ∧ ((GaussianProcess.set_L_alpha ext s).1.hyps = s.hyps)
    ∧ ((GaussianProcess.set_L_alpha ext s).1.training_data = s.training_data)
    ∧ ((GaussianProcess.set_L_alpha ext s).1.training_labels = s.training_labels)
    ∧ ((GaussianProcess.set_L_alpha ext s).1.training_labels_np = s.training_labels_np) := by
  unfold GaussianProcess.set_L_alpha
  cases h : ext.cholesky (GaussianProcess.kyOf ext s) <;> simp [h]

/-- C1: on a model whose stored ky_mat is the full covariance matrix of
its first N training entries (an initial factorization exists, l_mat is
non-null), the incremental update_L_alpha on the enlarged training set
and a full set_L_alpha rebuild on the same set with the same
hyperparameters store the same ky_mat, namely the full covariance matrix
of all entries; both paths complete. -/
theorem c1_incremental_matches_rebuild
    (ext : GPExt Env EnvD) (s : GPState Env) (N : ℕ) (lm L : List (List ℚ))
    (hsym : ∀ a b i j, effKernel ext s a b i j = effKernel ext s b a j i)
    (hN : N ≤ s.training_data.length)
    (hl : s.l_mat = some lm)
    (hky : s.ky_mat
      = some (ky_full (effKernel ext s) s.hyps (s.training_data.take N)))
    (hch : ext.cholesky (GaussianProcess.kyOf ext s) = some L) :
    (GaussianProcess.update_L_alpha ext s).1.ky_mat
        = (GaussianProcess.set_L_alpha ext s).1.ky_mat
    ∧ (GaussianProcess.update_L_alpha ext s).1.ky_mat
        = some (GaussianProcess.kyOf ext s)
    ∧ (GaussianProcess.update_L_alpha ext s).2 = none
    ∧ (GaussianProcess.set_L_alpha ext s).2 = none := by
  have hupd := ky_update_eq_full (effKernel ext s) hsym s.hyps s.training_data
    N hN s.par s.no_cpus
  have h1 : (GaussianProcess.update_L_alpha ext s)
      = ({ s with
             ky_mat := some (GaussianProcess.kyOf ext s)
             l_mat := some L
             alpha := some (matVecQ (matMulQ (transposeQ (ext.inv L)) (ext.inv L))
               s.training_labels_np)
             ky_mat_inv := some (matMulQ (transposeQ (ext.inv L)) (ext.inv L))
             l_mat_inv := some (ext.inv L) }, none) := by
    have hch2 : ext.cholesky (ky_full (effKernel ext s) s.hyps s.training_data)
        = some L := hch
    unfold GaussianProcess.update_L_alpha
    rw [hl, hky]
    simp only [hupd, hch2]
    rfl
  have h2 : (GaussianProcess.set_L_alpha ext s).1.ky_mat
        = some (GaussianProcess.kyOf ext s)
      ∧ (GaussianProcess.set_L_alpha ext s).2 = none := by
    unfold GaussianProcess.set_L_alpha
    simp only [hch]
    simp
  refine ⟨?_, ?_, ?_, h2.2⟩
  · rw [h1, h2.1]
  · rw [h1]
  · rw [h1]

theorem c1_incremental_matches_rebuild_witness :
    (GaussianProcess.update_L_alpha extNat sC1).1.ky_mat
        = (GaussianProcess.set_L_alpha extNat sC1).1.ky_mat
    ∧ (GaussianProcess.update_L_alpha extNat sC1).2 = none
    ∧ (GaussianProcess.set_L_alpha extNat sC1).2 = none := by
  have h := c1_incremental_matches_rebuild extNat sC1 1 [[1]]
    (GaussianProcess.kyOf extNat sC1)
    (fun a b i j => by simp [effKernel, extNat, sC1, sNat]; ring)
    (by decide) rfl rfl rfl
  exact ⟨h.1, h.2.2.1, h.2.2.2⟩

/-- C3: set_L_alpha is atomic: a Cholesky failure on the assembled
covariance matrix makes the call raise with the state exactly as it was
(no cached field modified), while a success stores ky_mat, l_mat, alpha,
ky_mat_inv, l_mat_inv and the refreshed likelihood pair all together in
one returned state. -/
theorem c3_set_L_alpha_atomic (ext : GPExt Env EnvD) (s : GPState Env) :
    (ext.cholesky (GaussianProcess.kyOf ext s) = none →
        GaussianProcess.set_L_alpha ext s = (s, some Err.linAlgError))
    ∧ (∀ L, ext.cholesky (GaussianProcess.kyOf ext s) = some L →
        GaussianProcess.set_L_alpha ext s
          = ({ s with
                 ky_mat := some (GaussianProcess.kyOf ext s)
                 l_mat := some L
                 alpha := some (matVecQ (matMulQ (transposeQ (ext.inv L)) (ext.inv L))
                   s.training_labels_np)
                 ky_mat_inv := some (matMulQ (transposeQ (ext.inv L)) (ext.inv L))
                 l_mat_inv := some (ext.inv L)
                 likelihood := some (ext.get_like_grad_from_mats
                   (GaussianProcess.kyOf ext s)
                   (ext.hyp_builder s.hyps (if s.multihyps then s.hyps_mask else none)
                     s.training_data s.training_labels_np)
                   s.training_labels_np).1
                 likelihood_gradient := some (ext.get_like_grad_from_mats
                   (GaussianProcess.kyOf ext s)
                   (ext.hyp_builder s.hyps (if s.multihyps then s.hyps_mask else none)
                     s.training_data s.training_labels_np)
                   s.training_labels_np).2 }, none)) := by
  constructor
  · intro h
    unfold GaussianProcess.set_L_alpha
    simp only [h]
  · intro L h
    unfold GaussianProcess.set_L_alpha
    simp only [h]

theorem c3_set_L_alpha_atomic_witness :
    GaussianProcess.set_L_alpha extCholFail sC1 = (sC1, some Err.linAlgError)
    ∧ (GaussianProcess.set_L_alpha extNat sC1).2 = none := by
  refine ⟨(c3_set_L_alpha_atomic extCholFail sC1).1 rfl, ?_⟩
  rw [(c3_set_L_alpha_atomic extNat sC1).2 (GaussianProcess.kyOf extNat sC1) rfl]

/-- C7: the incremental update on a model with an existing factorization
recomputes ky_mat, l_mat, l_mat_inv, ky_mat_inv and alpha from the
updated covariance matrix, and leaves likelihood and likelihood_gradient
untouched (stale). -/
theorem c7_update_L_alpha_stale_likelihood
    (ext : GPExt Env EnvD) (s : GPState Env) (lm old L : List (List ℚ))
    (hl : s.l_mat = some lm) (hky : s.ky_mat = some old)
    (hch : ext.cholesky (get_ky_mat_update old s.training_data
        (fun x d1 => get_kernel_vector (effKernel ext s) s.training_data x d1)
        s.hyps s.par s.no_cpus) = some L) :
    GaussianProcess.update_L_alpha ext s
      = ({ s with
             ky_mat := some (get_ky_mat_update old s.training_data
               (fun x d1 => get_kernel_vector (effKernel ext s) s.training_data x d1)
               s.hyps s.par s.no_cpus)
             l_mat := some L
             alpha := some (matVecQ (matMulQ (transposeQ (ext.inv L)) (ext.inv L))
               s.training_labels_np)
             ky_mat_inv := some (matMulQ (transposeQ (ext.inv L)) (ext.inv L))
             l_mat_inv := some (ext.inv L) }, none)
    ∧ (GaussianProcess.update_L_alpha ext s).1.likelihood = s.likelihood
    ∧ (GaussianProcess.update_L_alpha ext s).1.likelihood_gradient
        = s.likelihood_gradient := by
  have h : GaussianProcess.update_L_alpha ext s
      = ({ s with
             ky_mat := some (get_ky_mat_update old s.training_data
               (fun x d1 => get_kernel_vector (effKernel ext s) s.training_data x d1)
               s.hyps s.par s.no_cpus)
             l_mat := some L
             alpha := some (matVecQ (matMulQ (transposeQ (ext.inv L)) (ext.inv L))
               s.training_labels_np)
             ky_mat_inv := some (matMulQ (transposeQ (ext.inv L)) (ext.inv L))
             l_mat_inv := some (ext.inv L) }, none) := by
    unfold GaussianProcess.update_L_alpha
    rw [hl, hky]
    simp only [hch]
  refine ⟨h, ?_, ?_⟩ <;> rw [h]

theorem c7_update_L_alpha_stale_likelihood_witness :
    (GaussianProcess.update_L_alpha extNat sC1).1.likelihood = sC1.likelihood
    ∧ (GaussianProcess.update_L_alpha extNat sC1).1.likelihood_gradient
        = sC1.likelihood_gradient
    ∧ (GaussianProcess.update_L_alpha extNat sC1).2 = none := by
  have h := c7_update_L_alpha_stale_likelihood extNat sC1 [[1]]
    (ky_full (fun a b d1 d2 => (a * b + d1 * d2 : ℚ)) [1] [0])
    (get_ky_mat_update (ky_full (fun a b d1 d2 => (a * b + d1 * d2 : ℚ)) [1] [0])
      sC1.training_data
      (fun x d1 => get_kernel_vector (effKernel extNat sC1) sC1.training_data x d1)
      sC1.hyps sC1.par sC1.no_cpus)
    rfl rfl rfl
  exact ⟨h.2.1, h.2.2, by rw [h.1]⟩

/-- C2 counterexample: with algo L-BFGS-B and an objective that raises in
every optimization attempt, the guarded first attempt does warn and
permanently switch the algorithm to BFGS, and the BFGS run does happen in
the same call, but that run raises as well, unguarded, so the call does
not complete without raising: the claim of completion fails. -/
theorem c2_counterexample :
    sNat.algo = "L-BFGS-B"
    ∧ extMinFail.minimize
        ⟨"L-BFGS-B", some (sNat.bounds.getD (defaultBounds sNat.hyps.length)),
          sNat.hyps⟩ = .error ()
    ∧ (GaussianProcess.train extMinFail sNat none).warned = true
    ∧ (GaussianProcess.train extMinFail sNat none).state.algo = "BFGS"
    ∧ "BFGS" ∈ (GaussianProcess.train extMinFail sNat none).calls
    ∧ (GaussianProcess.train extMinFail sNat none).err = some Err.numericalError := by
  refine ⟨rfl, rfl, ?_, ?_, ?_, ?_⟩ <;> decide

/-- C2 (amended): on a model with algo L-BFGS-B whose guarded bounded
attempt raises, a warning is emitted, algo is permanently switched to
BFGS, and (with no custom bounds) the unconstrained method runs in the
same call; provided that fallback run and the final rebuild do not
themselves raise, the call completes without raising to the caller. -/
theorem c2_lbfgsb_fallback_to_bfgs
    (ext : GPExt Env EnvD) (s : GPState Env) (r : OptRes) (L : List (List ℚ))
    (halgo : s.algo = "L-BFGS-B")
    (hfail : ext.minimize
      ⟨"L-BFGS-B", some (s.bounds.getD (defaultBounds s.hyps.length)), s.hyps⟩
      = .error ())
    (hbf : ext.minimize ⟨"BFGS", none, s.hyps⟩ = .ok r)
    (hch : ext.cholesky
      (GaussianProcess.kyOf ext { s with algo := "BFGS", hyps := r.x }) = some L) :
    (GaussianProcess.train ext s none).warned = true
    ∧ (GaussianProcess.train ext s none).state.algo = "BFGS"
    ∧ "BFGS" ∈ (GaussianProcess.train ext s none).calls
    ∧ (GaussianProcess.train ext s none).err = none := by
  have hsel : GaussianProcess.trainSelect ext s none
      = ⟨some r, { s with algo := "BFGS" }, true, ["L-BFGS-B", "BFGS"], none⟩ := by
    unfold GaussianProcess.trainSelect
    simp [halgo, hfail, hbf]
  have hset := (c3_set_L_alpha_atomic ext { s with algo := "BFGS", hyps := r.x }).2 L hch
  unfold GaussianProcess.train
  rw [hsel]
  simp [hset]

theorem c2_lbfgsb_fallback_to_bfgs_witness :
    (GaussianProcess.train extLbfgsFail sNat none).warned = true
    ∧ (GaussianProcess.train extLbfgsFail sNat none).state.algo = "BFGS"
    ∧ "BFGS" ∈ (GaussianProcess.train extLbfgsFail sNat none).calls
    ∧ (GaussianProcess.train extLbfgsFail sNat none).err = none := by
  exact c2_lbfgsb_fallback_to_bfgs extLbfgsFail sNat ⟨[1], 5, [7]⟩
    (GaussianProcess.kyOf extLbfgsFail { sNat with algo := "BFGS", hyps := [1] })
    rfl rfl rfl rfl

/-- C6: when some optimization branch produced a result and the call
completes, the hyperparameters become the optimizer result, a full
set_L_alpha rebuild has been performed on them, and the stored likelihood
and gradient are the negated objective value and gradient; when no branch
produced a result (and nothing raised earlier), train raises
RuntimeError. -/
theorem c6_train_success_postconditions
    (ext : GPExt Env EnvD) (s : GPState Env) (cb : Option BoundsQ) :
    (((GaussianProcess.trainSelect ext s cb).raised = none
        ∧ (GaussianProcess.trainSelect ext s cb).res = none) →
      (GaussianProcess.train ext s cb).err = some Err.runtimeError)
    ∧ (∀ r, (GaussianProcess.trainSelect ext s cb).raised = none →
        (GaussianProcess.trainSelect ext s cb).res = some r →
        (GaussianProcess.train ext s cb).err = none →
        (GaussianProcess.set_L_alpha ext
            { (GaussianProcess.trainSelect ext s cb).state with hyps := r.x }).2 = none
        ∧ (GaussianProcess.train ext s cb).state
            = { (GaussianProcess.set_L_alpha ext
                  { (GaussianProcess.trainSelect ext s cb).state with hyps := r.x }).1 with
                  likelihood := some (-r.f)
                  likelihood_gradient := some (r.jac.map fun q => -q) }
        ∧ (GaussianProcess.train ext s cb).state.hyps = r.x
        ∧ (GaussianProcess.train ext s cb).state.likelihood = some (-r.f)
        ∧ (GaussianProcess.train ext s cb).state.likelihood_gradient
            = some (r.jac.map fun q => -q)) := by
  rcases hsel : GaussianProcess.trainSelect ext s cb with ⟨res, st, w, cs, rz⟩
  constructor
  · rintro ⟨h1, h2⟩
    simp only at h1 h2
    unfold GaussianProcess.train
    rw [hsel]
    simp only [h1, h2]
  · intro r h1 h2 h3
    simp only at h1 h2
    subst h1 h2
    unfold GaussianProcess.train at h3 ⊢
    rw [hsel] at h3 ⊢
    simp only at h3 ⊢
    have hfr := set_L_alpha_frame ext { st with hyps := r.x }
    generalize hset : GaussianProcess.set_L_alpha ext { st with hyps := r.x } = p at h3 hfr ⊢
    rcases p with ⟨s3, e⟩
    cases e with
    | some e => simp at h3
    | none =>
      simp only at hfr
      simp [hfr.2.1]

theorem c6_train_success_postconditions_witness :
    (GaussianProcess.trainSelect extNat sNat none).res = some ⟨[1], 5, [7]⟩
    ∧ (GaussianProcess.train extNat sNat none).state.hyps = [1]
    ∧ (GaussianProcess.train extNat sNat none).state.likelihood = some (-5)
    ∧ (GaussianProcess.train extNat sNat none).state.likelihood_gradient
        = some [-7] := by
  have h := (c6_train_success_postconditions extNat sNat none).2 ⟨[1], 5, [7]⟩
    rfl rfl (by decide)
  exact ⟨rfl, h.2.2.1, h.2.2.2.1, h.2.2.2.2⟩

/-- C4 (amended): predict asserts the alpha precondition (a violation is
an AssertionError before any result); predict_local_energy and
predict_local_energy_and_var run no assertion, yet a violation still
fails loudly there, surfacing from the numpy calls as TypeError or
ValueError, and no predictor rebuilds anything implicitly. -/
theorem c4_prediction_precondition
    (ext : GPExt Env EnvD) (s : GPState Env) (x : Env) (d : ℕ)
    (hv : s.alpha = none
      ∨ ∃ a, s.alpha = some a ∧ a.length ≠ 3 * s.training_data.length) :
    GaussianProcess.predict ext s x d = .error .assertionError
    ∧ (∃ e, GaussianProcess.predict_local_energy ext s x = .error e)
    ∧ (∃ e, GaussianProcess.predict_local_energy_and_var ext s x = .error e) := by
  rcases hv with h | ⟨a, ha, hne⟩
  · refine ⟨by simp [GaussianProcess.predict, h], ?_, ?_⟩
    · cases hek : s.energy_force_kernel with
      | none =>
        exact ⟨.typeError, by
          simp [GaussianProcess.predict_local_energy, GaussianProcess.en_kern_vec, hek]⟩
      | some nm =>
        exact ⟨.typeError, by
          simp [GaussianProcess.predict_local_energy, GaussianProcess.en_kern_vec, hek, h]⟩
    · cases hek : s.energy_force_kernel with
      | none =>
        exact ⟨.typeError, by
          simp [GaussianProcess.predict_local_energy_and_var,
            GaussianProcess.en_kern_vec, hek]⟩
      | some nm =>
        exact ⟨.typeError, by
          simp [GaussianProcess.predict_local_energy_and_var,
            GaussianProcess.en_kern_vec, hek, h]⟩
  · have hne2 : ¬ (3 * s.training_data.length = a.length) := fun hc => hne hc.symm
    refine ⟨by simp [GaussianProcess.predict, ha, hne2], ?_, ?_⟩
    · cases hek : s.energy_force_kernel with
      | none =>
        exact ⟨.typeError, by
          simp [GaussianProcess.predict_local_energy, GaussianProcess.en_kern_vec, hek]⟩
      | some nm =>
        exact ⟨.valueError, by
          simp [GaussianProcess.predict_local_energy, GaussianProcess.en_kern_vec,
            hek, ha, hne]⟩
    · cases hek : s.energy_force_kernel with
      | none =>
        exact ⟨.typeError, by
          simp [GaussianProcess.predict_local_energy_and_var,
            GaussianProcess.en_kern_vec, hek]⟩
      | some nm =>
        exact ⟨.valueError, by
          simp [GaussianProcess.predict_local_energy_and_var,
            GaussianProcess.en_kern_vec, hek, ha, hne]⟩

/-- C4 counterexample: on a model with a violated precondition (alpha is
None) the local-energy predictor fails with TypeError from the matmul,
not with the AssertionError an assert would produce: the precondition is
not asserted in predict_local_energy. -/
theorem c4_counterexample :
    sC4.alpha = none
    ∧ GaussianProcess.predict_local_energy extNat sC4 0 = .error .typeError
    ∧ Err.typeError ≠ Err.assertionError := by
  refine ⟨rfl, rfl, by decide⟩

theorem c4_prediction_precondition_witness :
    GaussianProcess.predict extNat sC4 0 1 = .error .assertionError
    ∧ (∃ e, GaussianProcess.predict_local_energy extNat sC4 0 = .error e)
    ∧ (∃ e, GaussianProcess.predict_local_energy_and_var extNat sC4 0 = .error e) :=
  c4_prediction_precondition extNat sC4 0 1 (Or.inl rfl)

theorem foldl_max_lt (n : ℕ) (xs : List ℕ) (x : ℕ) :
    xs.foldl max x < n ↔ x < n ∧ ∀ e ∈ xs, e < n := by
  induction xs generalizing x with
  | nil => simp
  | cons a t ih =>
    simp only [List.foldl_cons, List.mem_cons]
    rw [ih]
    constructor
    · rintro ⟨h1, h2⟩
      rcases max_lt_iff.mp h1 with ⟨hx, ha⟩
      refine ⟨hx, fun e he => ?_⟩
      rcases he with rfl | he
      · exact ha
      · exact h2 e he
    · rintro ⟨hx, h⟩
      exact ⟨max_lt_iff.mpr ⟨hx, h a (Or.inl rfl)⟩, fun e he => h e (Or.inr he)⟩

theorem checkMaskBlock_ok_iff (ng : Option ℕ) (mask : Option (List ℕ)) (req n : ℕ) :
    GaussianProcess.checkMaskBlock ng mask req = .ok n ↔
      (n = ng.getD 0 ∧
        (0 < n → ∃ bm, mask = some bm ∧ bm ≠ [] ∧ (∀ e ∈ bm, e < n)
          ∧ bm.length = req)) := by
  cases ng with
  | none =>
    simp only [GaussianProcess.checkMaskBlock, Option.getD_none]
    constructor
    · intro h
      cases h
      exact ⟨rfl, fun h => absurd h (by omega)⟩
    · rintro ⟨rfl, _⟩
      rfl
  | some k =>
    simp only [GaussianProcess.checkMaskBlock, Option.getD_some]
    by_cases h0 : 0 < k
    · rw [if_pos h0]
      cases mask with
      | none =>
        constructor
        · intro h
          exact absurd h (by simp)
        · rintro ⟨rfl, h⟩
          rcases h h0 with ⟨bm, hbm, _⟩
          exact absurd hbm (by simp)
      | some bm =>
        cases bm with
        | nil =>
          simp only [npMax]
          constructor
          · intro h
            exact absurd h (by simp)
          · rintro ⟨rfl, h⟩
            rcases h h0 with ⟨bm, hbm, hne, _, _⟩
            cases hbm
            exact absurd rfl hne
        | cons x xs =>
          simp only [npMax]
          by_cases hmx : xs.foldl max x < k
          · rw [if_pos hmx]
            by_cases hlen : (x :: xs).length = req
            · rw [if_pos hlen]
              constructor
              · intro h
                cases h
                refine ⟨rfl, fun _ => ⟨x :: xs, rfl, by simp, ?_, hlen⟩⟩
                intro e he
                rcases (foldl_max_lt _ xs x).mp hmx with ⟨hx, hall⟩
                rcases List.mem_cons.mp he with rfl | he
                · exact hx
                · exact hall e he
              · rintro ⟨rfl, _⟩
                rfl
            · rw [if_neg hlen]
              constructor
              · intro h
                exact absurd h (by simp)
              · rintro ⟨rfl, h⟩
                rcases h h0 with ⟨bm, hbm, _, _, hl⟩
                cases hbm
                exact absurd hl hlen
          · rw [if_neg hmx]
            constructor
            · intro h
              exact absurd h (by simp)
            · rintro ⟨rfl, h⟩
              rcases h h0 with ⟨bm, hbm, _, hall, _⟩
              cases hbm
              refine absurd ((foldl_max_lt _ xs x).mpr ⟨?_, ?_⟩) hmx
              · exact hall x (by simp)
              · exact fun e he => hall e (by simp [he])
    · rw [if_neg h0]
      have hk : k = 0 := by omega
      subst hk
      constructor
      · intro h
        cases h
        exact ⟨rfl, fun h => absurd h (by omega)⟩
      · rintro ⟨rfl, _⟩
        rfl

theorem checkHypsLen_ok_iff (m : HypsMask) (n2b n3b : ℕ) (hyps : List ℚ) :
    GaussianProcess.checkHypsLen m n2b n3b hyps = .ok () ↔
      (match m.map with
       | some mp => ∃ orig, m.original = some orig
           ∧ n2b * 2 + n3b * 2 + 1 = orig.length ∧ mp.length = hyps.length
       | none => n2b * 2 + n3b * 2 + 1 = hyps.length) := by
  cases hmp : m.map with
  | none =>
    simp only [GaussianProcess.checkHypsLen, hmp]
    split <;> simp_all
  | some mp =>
    cases horig : m.original with
    | none => simp [GaussianProcess.checkHypsLen, hmp, horig]
    | some orig =>
      simp only [GaussianProcess.checkHypsLen, hmp, horig]
      split
      · split <;> simp_all
      · simp_all

theorem init_ok_iff (Env : Type) (p : GPParams) (m : HypsMask)
    (hm : p.hyps_mask = some m) (hmh : p.multihyps = true) :
    (∃ st, GaussianProcess.init Env p = .ok st) ↔
      (m.nspec.isSome = true ∧ m.spec_mask.isSome = true ∧
        ∃ n2b n3b,
          GaussianProcess.checkBond m (m.nspec.getD 0) = .ok n2b
          ∧ GaussianProcess.checkTriplet m (m.nspec.getD 0) = .ok n3b
          ∧ 0 < n2b + n3b
          ∧ GaussianProcess.checkHypsLen m n2b n3b p.hyps = .ok ()) := by
  simp only [GaussianProcess.init, hm, hmh]
  cases hns : m.nspec with
  | none => simp
  | some nspec =>
    simp only [Option.getD_some, Option.isSome_some, true_and]
    cases hsm : m.spec_mask with
    | none => simp
    | some sm =>
      simp only [Option.isSome_some, true_and]
      rcases hcb : GaussianProcess.checkBond m nspec with e | n2b
      · simp [hcb]
      · rcases hct : GaussianProcess.checkTriplet m nspec with e | n3b
        · simp [hct]
        · by_cases hpos : 0 < n2b + n3b
          · rcases hcl : GaussianProcess.checkHypsLen m n2b n3b p.hyps with e | u
            · simp [hpos, hcl]
            · cases u
              simp [hpos, hcl]
              omega
          · simp [hpos]
            intro h
            omega

/-- C5 (amended): with multihyps active and a mask supplied, construction
succeeds exactly when the stated mask relations hold, except for a
degenerate corner: when a group count is positive while its mask array is
empty (possible only with nspec = 0), np.max raises even though every
length and range relation holds vacuously.  Soundness needs no side
condition; completeness holds whenever nspec is at least 1. -/
theorem c5_mask_validation (Env : Type) (p : GPParams) (m : HypsMask)
    (hm : p.hyps_mask = some m) (hmh : p.multihyps = true) :
    ((∃ st, GaussianProcess.init Env p = .ok st) → MaskValid m p.hyps)
    ∧ (MaskValid m p.hyps → 1 ≤ m.nspec.getD 0 →
        ∃ st, GaussianProcess.init Env p = .ok st) := by
  constructor
  · intro hok
    rcases (init_ok_iff Env p m hm hmh).mp hok with
      ⟨hns, hsm, n2b, n3b, hcb, hct, hpos, hcl⟩
    obtain ⟨hn2b, hbm⟩ :=
      (checkMaskBlock_ok_iff m.nbond m.bond_mask ((m.nspec.getD 0) ^ 2) n2b).mp hcb
    obtain ⟨hn3b, htm⟩ :=
      (checkMaskBlock_ok_iff m.ntriplet m.triplet_mask ((m.nspec.getD 0) ^ 3) n3b).mp hct
    subst hn2b hn3b
    refine ⟨hns, hsm, ?_, ?_, hpos, ?_⟩
    · intro h0
      rcases hbm h0 with ⟨bm, h1, _, h3, h4⟩
      exact ⟨bm, h1, h4, h3⟩
    · intro h0
      rcases htm h0 with ⟨tm, h1, _, h3, h4⟩
      exact ⟨tm, h1, h4, h3⟩
    · have h := (checkHypsLen_ok_iff m _ _ p.hyps).mp hcl
      cases hmp : m.map with
      | some mp =>
        simp only [hmp] at h ⊢
        rcases h with ⟨orig, horig, hlen, hml⟩
        exact ⟨orig, horig, by omega, hml⟩
      | none =>
        simp only [hmp] at h ⊢
        omega
  · rintro ⟨hns, hsm, hbm, htm, hpos, hmap⟩ hnspec
    apply (init_ok_iff Env p m hm hmh).mpr
    refine ⟨hns, hsm, m.nbond.getD 0, m.ntriplet.getD 0, ?_, ?_, hpos, ?_⟩
    · apply (checkMaskBlock_ok_iff _ _ _ _).mpr
      refine ⟨rfl, fun h0 => ?_⟩
      rcases hbm h0 with ⟨bm, h1, h2, h3⟩
      have hlen : 0 < bm.length := by
        rw [h2]
        have := Nat.one_le_pow 2 (m.nspec.getD 0) (by omega)
        omega
      exact ⟨bm, h1, List.length_pos.mp hlen, h3, h2⟩
    · apply (checkMaskBlock_ok_iff _ _ _ _).mpr
      refine ⟨rfl, fun h0 => ?_⟩
      rcases htm h0 with ⟨tm, h1, h2, h3⟩
      have hlen : 0 < tm.length := by
        rw [h2]
        have := Nat.one_le_pow 3 (m.nspec.getD 0) (by omega)
        omega
      exact ⟨tm, h1, List.length_pos.mp hlen, h3, h2⟩
    · apply (checkHypsLen_ok_iff _ _ _ _).mpr
      cases hmp : m.map with
      | some mp =>
        simp only [hmp] at hmap ⊢
        rcases hmap with ⟨orig, horig, hlen, hml⟩
        exact ⟨orig, horig, by omega, hml⟩
      | none =>
        simp only [hmp] at hmap ⊢
        omega

theorem c5_counterexample :
    MaskValid maskDegenerate pDegenerate.hyps
    ∧ GaussianProcess.init Unit pDegenerate = .error Err.valueError := by
  constructor
  · exact ⟨rfl, rfl, fun _ => ⟨[], rfl, rfl, by simp⟩,
      fun h => absurd h (by decide), by decide,
      (by decide : 2 * (maskDegenerate.nbond.getD 0 + maskDegenerate.ntriplet.getD 0) + 1
        = pDegenerate.hyps.length)⟩
  · rfl

theorem c5_mask_validation_witness :
    (∃ st, GaussianProcess.init Unit pScenario = .ok st)
    ∧ GaussianProcess.init Unit pScenarioBad = .error Err.assertionError := by
  constructor
  · exact (c5_mask_validation Unit pScenario maskScenario rfl rfl).2
      ⟨rfl, rfl, fun _ => ⟨[0, 0, 0, 0], rfl, rfl, by decide⟩,
        fun h => absurd h (by decide), by decide,
        (by decide : 2 * (maskScenario.nbond.getD 0 + maskScenario.ntriplet.getD 0) + 1
          = pScenario.hyps.length)⟩
      (by decide)
  · rfl

/-- C10: with multihyps False or no mask dict supplied, construction
silently discards the mask: it always succeeds, no validation check runs,
and the resulting model has hyps_mask None and multihyps False. -/
theorem c10_mask_silently_discarded (Env : Type) (p : GPParams)
    (h : p.multihyps = false ∨ p.hyps_mask = none) :
    GaussianProcess.init Env p = .ok (GaussianProcess.baseState Env p)
    ∧ (GaussianProcess.baseState Env p).hyps_mask = none
    ∧ (GaussianProcess.baseState Env p).multihyps = false := by
  refine ⟨?_, rfl, rfl⟩
  unfold GaussianProcess.init
  rcases h with h | h
  · cases hpm : p.hyps_mask with
    | none => rw [h]
    | some m => rw [h]
  · rw [h]

theorem c10_mask_silently_discarded_witness :
    GaussianProcess.init Unit pC10 = .ok (GaussianProcess.baseState Unit pC10)
    ∧ (GaussianProcess.baseState Unit pC10).hyps_mask = none
    ∧ (GaussianProcess.baseState Unit pC10).multihyps = false :=
  c10_mask_silently_discarded Unit pC10 (Or.inl rfl)

theorem trainSelect_state_cases (ext : GPExt Env EnvD) (s : GPState Env)
    (cb : Option BoundsQ) :
    (GaussianProcess.trainSelect ext s cb).state = s
    ∨ (GaussianProcess.trainSelect ext s cb).state = { s with algo := "BFGS" } := by
  unfold GaussianProcess.trainSelect
  cases hA : ext.minimize
    ⟨"L-BFGS-B", some (s.bounds.getD (defaultBounds s.hyps.length)), s.hyps⟩ <;>
  repeat' split
  all_goals (try simp [hA])
  all_goals
    first
    | (rename_i cbv
       cases hB : ext.minimize ⟨"L-BFGS-B", some cbv, s.hyps⟩ <;> simp [hB])
    | ((cases hC : ext.minimize ⟨"BFGS", none, s.hyps⟩ <;> simp [hC]); done)
    | (by_cases hb : s.algo = "BFGS"
       · cases hC2 : ext.minimize ⟨"BFGS", none, s.hyps⟩ <;> simp [hb, hC2]
       · by_cases hn : s.algo = "nelder-mead"
         · cases hD : ext.minimize ⟨"nelder-mead", none, s.hyps⟩ <;> simp [hb, hn, hD]
         · simp [hb, hn])

theorem train_preserves_training_set (ext : GPExt Env EnvD) (s : GPState Env)
    (cb : Option BoundsQ) :
    (GaussianProcess.train ext s cb).state.training_data = s.training_data
    ∧ (GaussianProcess.train ext s cb).state.training_labels = s.training_labels
    ∧ (GaussianProcess.train ext s cb).state.training_labels_np
        = s.training_labels_np := by
  have hsel := trainSelect_state_cases ext s cb
  rcases hst : GaussianProcess.trainSelect ext s cb with ⟨res, st, w, cs, rz⟩
  rw [hst] at hsel
  simp only at hsel
  have hstl : st.training_data = s.training_data
      ∧ st.training_labels = s.training_labels
      ∧ st.training_labels_np = s.training_labels_np := by
    rcases hsel with rfl | rfl <;> simp
  unfold GaussianProcess.train
  rw [hst]
  simp only
  cases rz with
  | some e => simpa using hstl
  | none =>
    cases res with
    | none => simpa using hstl
    | some r =>
      simp only
      have hfr := set_L_alpha_frame ext { st with hyps := r.x }
      generalize hset : GaussianProcess.set_L_alpha ext { st with hyps := r.x } = pp at hfr ⊢
      rcases pp with ⟨s3, e⟩
      cases e with
      | some e =>
        simp only at hfr ⊢
        exact ⟨hfr.2.2.1.trans hstl.1, hfr.2.2.2.1.trans hstl.2.1,
          hfr.2.2.2.2.trans hstl.2.2⟩
      | none =>
        simp only at hfr ⊢
        exact ⟨hfr.2.2.1.trans hstl.1, hfr.2.2.2.1.trans hstl.2.1,
          hfr.2.2.2.2.trans hstl.2.2⟩

theorem updateDbLoop_ok (ext : GPExt Env EnvD) (struc : Struc) (cut : List ℚ)
    (forces : List (List ℚ)) (idx : List ℕ) (st st' : GPState Env)
    (h : GaussianProcess.updateDbLoop ext struc cut forces idx st = (st', none)) :
    st'.training_labels_np = GaussianProcess.force_list_to_np st'.training_labels
    ∧ (st.training_data.length = st.training_labels.length →
        st'.training_data.length = st'.training_labels.length) := by
  induction idx generalizing st with
  | nil =>
    unfold GaussianProcess.updateDbLoop at h
    simp only [Prod.mk.injEq] at h
    obtain ⟨h1, _⟩ := h
    subst h1
    exact ⟨rfl, by simp⟩
  | cons a rest ih =>
    unfold GaussianProcess.updateDbLoop at h
    cases hf : forces[a]? with
    | none =>
      rw [hf] at h
      simp at h
    | some f =>
      rw [hf] at h
      have := ih _ h
      refine ⟨this.1, fun hlen => ?_⟩
      have h2 := this.2 (by simp [hlen])
      exact h2

/-- C8 (amended): force_list_to_np is the pure row-major concatenation of
the stored force vectors; after every update_db call that completes
without raising (every selected atom index within range of the forces
list) and after every add_one_env call, training_labels_np is exactly the
concatenation of training_labels in entry order, and when every stored
force is a 3-vector the flattened length is 3 * len(training_data).  An
update_db call whose selection hits an out-of-range index raises midway
and leaves the flattened vector stale (see the counterexample). -/
theorem c8_flattened_labels (ext : GPExt Env EnvD) (s : GPState Env)
    (struc : Struc) (forces : List (List ℚ)) (custom_range : List ℕ)
    (env : Env) (force : List ℚ) (tr : Bool) (cb : Option BoundsQ) :
    (∀ l, GaussianProcess.force_list_to_np l = l.flatten)
    ∧ (∀ st', GaussianProcess.update_db ext s struc forces custom_range = (st', none) →
        st'.training_labels_np = st'.training_labels.flatten
        ∧ (s.training_data.length = s.training_labels.length →
           (∀ f ∈ st'.training_labels, f.length = 3) →
           st'.training_labels_np.length = 3 * st'.training_data.length))
    ∧ (∀ st' e, GaussianProcess.add_one_env ext s env force tr cb = (st', e) →
        st'.training_labels_np = st'.training_labels.flatten
        ∧ (s.training_data.length = s.training_labels.length →
           (∀ f ∈ st'.training_labels, f.length = 3) →
           st'.training_labels_np.length = 3 * st'.training_data.length)) := by
  refine ⟨force_list_to_np_eq_flatten, ?_, ?_⟩
  · intro st' h
    unfold GaussianProcess.update_db at h
    have hloop := updateDbLoop_ok ext struc s.cutoffs forces _ s st' h
    refine ⟨by rw [hloop.1, force_list_to_np_eq_flatten], fun hlen h3 => ?_⟩
    rw [hloop.1, force_list_to_np_eq_flatten, flatten_length_of_three _ h3]
    have := hloop.2 hlen
    omega
  · intro st' e h
    unfold GaussianProcess.add_one_env at h
    cases tr with
    | false =>
      simp only [Bool.false_eq_true, if_false, Prod.mk.injEq] at h
      obtain ⟨h1, _⟩ := h
      subst h1
      refine ⟨by rw [force_list_to_np_eq_flatten], fun hlen h3 => ?_⟩
      simp only
      rw [force_list_to_np_eq_flatten, flatten_length_of_three _ (by simpa using h3)]
      simp [hlen]
    | true =>
      simp only [if_true, Prod.mk.injEq] at h
      obtain ⟨h1, _⟩ := h
      subst h1
      have hp := train_preserves_training_set ext
        { s with
            training_data := s.training_data ++ [env]
            training_labels := s.training_labels ++ [force]
            training_labels_np :=
              GaussianProcess.force_list_to_np (s.training_labels ++ [force]) } cb
      refine ⟨?_, fun hlen h3 => ?_⟩
      · rw [hp.2.2, hp.2.1]
        simp only
        rw [force_list_to_np_eq_flatten]
      · rw [hp.2.2, hp.1]
        simp only
        rw [force_list_to_np_eq_flatten,
          flatten_length_of_three _ (by rw [hp.2.1] at h3; simpa using h3)]
        simp [hlen]

/-- C8 counterexample: update_db over the selection [0, 1] against a
one-entry forces list appends atom 0 and then raises IndexError at atom
1, before the reflattening line runs: the training set has grown but the
flattened label vector is stale, so the invariant fails after this
mutation. -/
theorem c8_counterexample :
    (GaussianProcess.update_db extNat sNat strucC8 [[1, 2, 3]] [0, 1]).2
      = some Err.indexError
    ∧ (GaussianProcess.update_db extNat sNat strucC8 [[1, 2, 3]] [0, 1]).1.training_labels
      = [[1, 2, 3]]
    ∧ (GaussianProcess.update_db extNat sNat strucC8 [[1, 2, 3]] [0, 1]).1.training_labels_np
      ≠ GaussianProcess.force_list_to_np
        (GaussianProcess.update_db extNat sNat strucC8 [[1, 2, 3]] [0, 1]).1.training_labels := by
  refine ⟨rfl, rfl, ?_⟩
  decide

theorem c8_flattened_labels_witness :
    (GaussianProcess.update_db extNat sNat strucC8 [[1, 2, 3]] []).1.training_labels_np
      = (GaussianProcess.update_db extNat sNat strucC8 [[1, 2, 3]] []).1.training_labels.flatten
    ∧ (GaussianProcess.update_db extNat sNat strucC8 [[1, 2, 3]] []).1.training_labels_np.length
      = 3 * (GaussianProcess.update_db extNat sNat strucC8 [[1, 2, 3]] []).1.training_data.length := by
  have h := (c8_flattened_labels extNat sNat strucC8 [[1, 2, 3]] ([] : List ℕ)
      0 [1, 2, 3] false none).2.1
    (GaussianProcess.update_db extNat sNat strucC8 [[1, 2, 3]] []).1 (by decide)
  exact ⟨h.1, h.2 (by decide) (by decide)⟩

theorem init_ok_hyps (Env : Type) (p : GPParams) (st : GPState Env)
    (h : GaussianProcess.init Env p = .ok st) : st.hyps = p.hyps := by
  unfold GaussianProcess.init at h
  repeat' split at h
  all_goals
    first
    | (injection h with h1
       subst h1
       rfl)
    | (injection h)

/-- C9: whenever reconstruction from the dictionary form succeeds, the
rebuilt model carries the same hyperparameters and training labels, and
the cached alpha and ky_mat are passed through unchanged (hence equal
whenever present). -/
theorem c9_as_dict_from_dict_round_trip (ext : GPExt Env EnvD)
    (s s' : GPState Env)
    (h : GaussianProcess.from_dict ext (GaussianProcess.as_dict ext s) = .ok s') :
    s'.hyps = s.hyps
    ∧ s'.training_labels = s.training_labels
    ∧ s'.alpha = s.alpha
    ∧ s'.ky_mat = s.ky_mat := by
  unfold GaussianProcess.from_dict GaussianProcess.as_dict at h
  simp only at h
  rcases hk : (if containsSub s.kernel_name.toList "mc".toList then
      (if s.multihyps = false then ext.str_to_mc_kernel s.kernel_name
       else ext.str_to_mc_sephyps_kernel s.kernel_name)
      else ext.str_to_kernel_grad s.kernel_name) with u | ⟨fk, gk⟩
  · rw [hk] at h
    simp at h
  · rw [hk] at h
    rcases he : (match s.energy_kernel with
        | some nm => (ext.str_to_kernel nm).map some
        | none => .ok none) with u | ek
    · rw [he] at h
      simp at h
    · rw [he] at h
      rcases hef : (match s.energy_force_kernel with
          | some nm => (ext.str_to_kernel nm).map some
          | none => .ok none) with u | efk
      · rw [hef] at h
        simp at h
      · rw [hef] at h
        simp only at h
        rcases hinit : GaussianProcess.init Env
            { kernel := fk, kernel_grad := gk,
              energy_kernel := ek, energy_force_kernel := efk,
              cutoffs := s.cutoffs, hyps := s.hyps, hyp_labels := s.hyp_labels,
              par := s.par, no_cpus := s.no_cpus, maxiter := s.maxiter,
              opt_algorithm := s.algo, multihyps := s.multihyps,
              hyps_mask := s.hyps_mask, per_atom_par := true } with e | g
        · rw [hinit] at h
          simp at h
        · rw [hinit] at h
          simp only [Except.ok.injEq] at h
          subst h
          refine ⟨?_, rfl, rfl, rfl⟩
          simpa using init_ok_hyps Env _ g hinit

theorem c9_as_dict_from_dict_round_trip_witness :
    (GaussianProcess.from_dict extNat (GaussianProcess.as_dict extNat sC1)).map
        (fun t => (t.hyps, t.training_labels, t.alpha, t.ky_mat))
      = .ok (sC1.hyps, sC1.training_labels, sC1.alpha, sC1.ky_mat) := by
  have hsome : (GaussianProcess.from_dict extNat
      (GaussianProcess.as_dict extNat sC1)).toOption.isSome = true := by decide
  rcases hh : GaussianProcess.from_dict extNat (GaussianProcess.as_dict extNat sC1)
    with e | t
  · rw [hh] at hsome
    simp [Except.toOption] at hsome
  · have h := c9_as_dict_from_dict_round_trip extNat sC1 t hh
    simp only [Except.map, Except.ok.injEq]
    simp [h.1, h.2.1, h.2.2.1, h.2.2.2]
